import Mathlib

/-!
Verification of the SAST scan result-processing and upload pipeline of the
`aspm-scanner-cli` repository (files `aspm_cli/scan/sast.py` and
`aspm_cli/utils/common.py`), via a shallow embedding of the relevant Python
functions into Lean.

Python strings are modelled as `List Char` (`PyStr`), JSON values as the
inductive `JVal`, and Python `dict`s as insertion-ordered association lists.
External collaborators (the scan subprocess, the Claude subprocess, `requests`,
`json.loads`, `urlparse`, `shlex.split`, the filesystem) are parametrised:
their observable outputs are inputs of the embedded functions.
-/

namespace ASPM

/-- Python `str`, modelled as a list of characters. -/
abbrev PyStr := List Char

/-- JSON values as produced by Python's `json` module: `None`, booleans,
numbers (integer fidelity suffices for the claims), strings, lists, and
insertion-ordered dicts with string keys. -/
inductive JVal where
  | null
  | bool (b : Bool)
  | num (n : Int)
  | str (s : String)
  | arr (xs : List JVal)
  | obj (fields : List (String × JVal))

/-- First binding of a key in an insertion-ordered dict. -/
def lookupKey : List (String × JVal) → String → Option JVal
  | [], _ => none
  | (k, v) :: rest, key => if k = key then some v else lookupKey rest key

/-- Python `isinstance(v, dict)`. -/
def isDict : JVal → Bool
  | .obj _ => true
  | _ => false

/-- Python dict assignment `d[k] = v`: replaces the value of an existing key in
place, otherwise appends the binding at the end (insertion order; keys are
unique in a `dict`, so replacing the first binding is assignment). -/
def dictSet : List (String × JVal) → String → JVal → List (String × JVal)
  | [], k, v => [(k, v)]
  | p :: rest, k, v =>
    if p.1 = k then (k, v) :: rest else p :: dictSet rest k v

/-- Python `d.update(m)` for a dict `d`: sets each binding of `m` in order.
Raises (`AttributeError`) when the receiver is not a dict. -/
def pyDictUpdate (v : JVal) (pairs : List (String × JVal)) :
    Except Unit JVal :=
  match v with
  | .obj fs => .ok (.obj (pairs.foldl (fun acc p => dictSet acc p.1 p.2) fs))
  | _ => .error ()

/-- Python `v.get(k, default)` for a dict `v`; raises (`AttributeError`) when
the receiver is not a dict. -/
def pyGet (v : JVal) (k : String) (default : JVal) : Except Unit JVal :=
  match v with
  | .obj fs => .ok ((lookupKey fs k).getD default)
  | _ => .error ()

/-- Python `k in d` for a dict `d` (the only containment the embedded code
performs on a known dict). -/
def pyContainsKey (fs : List (String × JVal)) (k : String) : Bool :=
  fs.any (fun p => p.1 = k)

/-- Python `len(v)`: defined for strings, lists and dicts; raises
(`TypeError`) on `None`, booleans and numbers. -/
def pyLen : JVal → Except Unit Nat
  | .str s => .ok s.length
  | .arr xs => .ok xs.length
  | .obj fs => .ok fs.length
  | _ => .error ()

/-- Python truthiness of a value (`bool(v)`). -/
def pyTruthy : JVal → Bool
  | .null => false
  | .bool b => b
  | .num n => n != 0
  | .str s => s ≠ ""
  | .arr xs => !xs.isEmpty
  | .obj fs => !fs.isEmpty

/-- Python `iter(v)` as used by a `for` loop: lists yield their elements,
strings their characters (as one-character strings), dicts their keys;
`None`, booleans and numbers raise (`TypeError`). -/
def pyIterVals : JVal → Except Unit (List JVal)
  | .arr xs => .ok xs
  | .str s => .ok (s.data.map fun c => .str (String.mk [c]))
  | .obj fs => .ok (fs.map fun p => .str p.1)
  | _ => .error ()

/-- Python `str.upper()` (ASCII, which covers every string the pipeline
compares severities against). -/
def pyUpper (s : String) : String := String.mk (s.data.map Char.toUpper)

/-! ### upload_results (aspm_cli/utils/common.py, lines 45-142)

The request itself is an external collaborator (`requests.post` +
`raise_for_status`); its observable outcome is one of the handled cases. The
filesystem state is abstracted to whether a file exists at `file_path`; the
opened file's bytes never matter to the control flow. -/

/-- Outcome of the HTTP upload attempt, matching the `except` arms of
`upload_results`: success (2xx), `requests.exceptions.Timeout`, `SSLError`,
`ConnectionError`, other `RequestException` (including the non-2xx statuses
surfaced by `raise_for_status`), and any other exception. -/
inductive ReqOutcome where
  | success
  | timeout
  | sslError
  | connError
  | reqError
  | otherError

/-- Embedding of `upload_results`: takes whether `data_type` is falsy, whether
a file exists at `file_path`, the request outcome, and `keep_file`; returns
the exit code together with whether a file at `file_path` exists when the
function returns. The two early returns (`data_type` falsy, file missing)
happen before the `try`, so the `finally` block does not run on them. -/
def upload_results (dataTypeEmpty : Bool) (fileExists0 : Bool)
    (outcome : ReqOutcome) (keep_file : Bool) : Int × Bool :=
  if dataTypeEmpty then
    (1, fileExists0)
  else if !fileExists0 then
    (1, false)
  else
    let code : Int :=
      match outcome with
      | .success => 0
      | _ => 1
    -- finally: the file still exists; delete it unless keep_file
    (code, keep_file)

/-! ### The help-output short circuit of SASTScanner.run
(aspm_cli/scan/sast.py, lines 56-70)

`config.PASS_RETURN_CODE` lives in `aspm_cli/utils/config.py`, which is not
part of the provided sources. Modelled from the spec: exit code 0 is the pass
outcome ("0 = scan clean", spec section 6). -/

/-- Modelled from the spec: `config.PASS_RETURN_CODE`, the pass exit code; the
defining module `aspm_cli/utils/config.py` is not among the sources. Spec
section 6 fixes the pass exit code to 0. -/
def PASS_RETURN_CODE : Int := 0

/-- Substring search, Python `hay.find(pat)` restricted to found/not-found:
index of the first occurrence of `pat` in `hay`. -/
def subFind (pat : PyStr) : PyStr → Option Nat
  | [] => if pat.isPrefixOf ([] : PyStr) then some 0 else none
  | c :: rest =>
    if pat.isPrefixOf (c :: rest) then some 0
    else (subFind pat rest).map (· + 1)

/-- Python `pat in hay` for strings. -/
def strContains (hay pat : PyStr) : Bool := (subFind pat hay).isSome

/-- The token `"--help"` whose presence in the raw command marks a help
request. -/
def helpFlag : PyStr := "--help".data

/-- Embedding of the stream-logging prologue of `SASTScanner.run` (lines
56-70): given the raw command (`self.command`, possibly `None`), the captured
streams and the return code, returns `some (code, file)` when the method
returns immediately (the help short-circuit; `file = none` means no result
file) and `none` when control continues to result processing. -/
def runEarly (command : Option PyStr) (stdout stderr : PyStr)
    (returncode : Int) : Option (Int × Option PyStr) :=
  let cmd := command.getD []
  if stdout ≠ [] ∧ strContains cmd helpFlag then
    some (PASS_RETURN_CODE, none)
  else if stderr ≠ [] ∧ strContains cmd helpFlag ∧ returncode = 0 then
    some (PASS_RETURN_CODE, none)
  else
    none

/-! ### The Argument Sanitizer (`_build_sast_args`,
aspm_cli/scan/sast.py lines 270-317)

`shlex.split` is an external collaborator: the embedding works on the token
list it produces. `ToolManager.get_path("sast-rules")` (local mode) is
likewise external, so the default rules path is a parameter; in container
mode it is the constant `"/rules/default-rules/"`. -/

/-- The token walk of `_build_sast_args` (the `while` loop, lines 283-301):
returns the `sanitized_args` list and the `saw_rules_flag` boolean. A
forbidden flag is skipped (together with its value for `--output`); a `-f`
token sets the flag, is appended, and when a following token exists that
token is appended unconditionally as its value; a final `-f` with no value
falls through and is appended a second time. -/
def sanitizeLoop : List String → List String × Bool
  | [] => ([], false)
  | [a] =>
    if a = "--json" then ([], false)
    else if a = "--output" then ([], false)
    else if a = "-f" then (["-f", "-f"], true)
    else ([a], false)
  | a :: b :: t =>
    if a = "--json" then sanitizeLoop (b :: t)
    else if a = "--output" then sanitizeLoop t
    else if a = "-f" then (("-f" : String) :: b :: (sanitizeLoop t).1, true)
    else (a :: (sanitizeLoop (b :: t)).1, (sanitizeLoop (b :: t)).2)

/-- Embedding of `_build_sast_args` on the token list produced by
`shlex.split(self.command or "")`, with the default rules path as a parameter
(constant `"/rules/default-rules/"` in container mode, an external tool-path
lookup in local mode). -/
def _build_sast_args (args : List String) (default_rules : String) :
    List String :=
  let r := sanitizeLoop args
  (if r.2 then r.1 else r.1 ++ ["-f", default_rules]) ++
    ["--json", "--output", "results.json"]

/-- Static sufficient condition under which no forbidden flag token is
consumed as the value of a `-f` token: no `--json`/`--output` token
immediately follows a `-f` token. -/
def noCaptureB : List String → Bool
  | a :: b :: t =>
    (!(a == "-f" && (b == "--json" || b == "--output"))) && noCaptureB (b :: t)
  | _ => true

theorem noCaptureB_tail {x : String} {xs : List String}
    (h : noCaptureB (x :: xs) = true) : noCaptureB xs = true := by
  cases xs with
  | nil => rfl
  | cons b t =>
    simp only [noCaptureB, Bool.and_eq_true] at h
    exact h.2

theorem sanitizeLoop_no_forbidden :
    ∀ (n : Nat) (l : List String), l.length ≤ n → noCaptureB l = true →
      ∀ x ∈ (sanitizeLoop l).1, x ≠ "--json" ∧ x ≠ "--output" := by
  intro n
  induction n with
  | zero =>
    intro l hl _
    have : l = [] := List.eq_nil_of_length_eq_zero (Nat.le_zero.mp hl)
    subst this
    simp [sanitizeLoop]
  | succ n ih =>
    intro l hl hnc
    match l with
    | [] => simp [sanitizeLoop]
    | [a] =>
      by_cases hj : a = "--json"
      · simp [sanitizeLoop, hj]
      · by_cases ho : a = "--output"
        · simp [sanitizeLoop, hj, ho]
        · by_cases hf : a = "-f"
          · simp [sanitizeLoop, hj, ho, hf]
          · intro x hx
            simp only [sanitizeLoop, if_neg hj, if_neg ho, if_neg hf,
              List.mem_singleton] at hx
            subst hx
            exact ⟨hj, ho⟩
    | a :: b :: t =>
      have hlt : t.length ≤ n := by
        simp only [List.length_cons] at hl; omega
      have hlbt : (b :: t).length ≤ n := by
        simp only [List.length_cons] at hl ⊢; omega
      by_cases hj : a = "--json"
      · intro x hx
        simp only [sanitizeLoop, hj, if_pos rfl] at hx
        exact ih (b :: t) hlbt (noCaptureB_tail hnc) x hx
      · by_cases ho : a = "--output"
        · intro x hx
          simp only [sanitizeLoop, if_neg hj, ho, if_pos rfl] at hx
          exact ih t hlt (noCaptureB_tail (noCaptureB_tail hnc)) x hx
        · by_cases hf : a = "-f"
          · subst hf
            have hb : ¬(b = "--json" ∨ b = "--output") := by
              simp only [noCaptureB, Bool.and_eq_true] at hnc
              have h1 := hnc.1
              simp only [Bool.not_eq_true', Bool.and_eq_false_iff] at h1
              rcases h1 with h | h
              · simp at h
              · intro hc
                rcases hc with rfl | rfl <;> simp at h
            intro x hx
            simp [sanitizeLoop] at hx
            rcases hx with rfl | rfl | hx
            · exact ⟨by decide, by decide⟩
            · exact ⟨fun h => hb (Or.inl h), fun h => hb (Or.inr h)⟩
            · exact ih t hlt (noCaptureB_tail (noCaptureB_tail hnc)) x hx
          · intro x hx
            simp only [sanitizeLoop, if_neg hj, if_neg ho, if_neg hf,
              List.mem_cons] at hx
            rcases hx with rfl | hx
            · exact ⟨hj, ho⟩
            · exact ih (b :: t) hlbt (noCaptureB_tail hnc) x hx

theorem sanitizeLoop_trailing_f :
    ∀ (n : Nat) (init : List String), init.length ≤ n →
      init.getLast? ≠ some "--output" →
      ∃ p, sanitizeLoop (init ++ ["-f"]) = (p ++ ["-f", "-f"], true) := by
  intro n
  induction n with
  | zero =>
    intro init hl _
    have : init = [] := List.eq_nil_of_length_eq_zero (Nat.le_zero.mp hl)
    subst this
    exact ⟨[], by decide⟩
  | succ n ih =>
    intro init hl hlast
    match init with
    | [] => exact ⟨[], by decide⟩
    | [a] =>
      by_cases hj : a = "--json"
      · subst hj
        exact ⟨[], by decide⟩
      · by_cases ho : a = "--output"
        · exact absurd (by simp [ho]) hlast
        · by_cases hf : a = "-f"
          · subst hf
            exact ⟨[], by decide⟩
          · refine ⟨[a], ?_⟩
            simp [sanitizeLoop, if_neg hj, if_neg ho, if_neg hf]
    | a :: b :: init'' =>
      have hl' : (b :: init'').length ≤ n := by
        simp only [List.length_cons] at hl ⊢; omega
      have hl'' : init''.length ≤ n := by
        simp only [List.length_cons] at hl; omega
      have hlast' : (b :: init'').getLast? ≠ some "--output" := by
        rwa [List.getLast?_cons_cons] at hlast
      have hlast'' : init''.getLast? ≠ some "--output" := by
        match init'' with
        | [] => simp
        | c :: r => rwa [List.getLast?_cons_cons] at hlast'
      by_cases hj : a = "--json"
      · subst hj
        obtain ⟨p, hp⟩ := ih (b :: init'') hl' hlast'
        refine ⟨p, ?_⟩
        simpa [sanitizeLoop] using hp
      · by_cases ho : a = "--output"
        · subst ho
          obtain ⟨p, hp⟩ := ih init'' hl'' hlast''
          refine ⟨p, ?_⟩
          simpa [sanitizeLoop] using hp
        · by_cases hf : a = "-f"
          · subst hf
            obtain ⟨p, hp⟩ := ih init'' hl'' hlast''
            refine ⟨("-f" : String) :: b :: p, ?_⟩
            simp [sanitizeLoop, hp]
          · obtain ⟨p, hp⟩ := ih (b :: init'') hl' hlast'
            refine ⟨a :: p, ?_⟩
            have hstep : sanitizeLoop (a :: b :: (init'' ++ ["-f"])) =
                (a :: (sanitizeLoop (b :: (init'' ++ ["-f"]))).1,
                 (sanitizeLoop (b :: (init'' ++ ["-f"]))).2) := by
              simp [sanitizeLoop, if_neg hj, if_neg ho, if_neg hf]
            rw [List.cons_append] at hp
            rw [List.cons_append, List.cons_append, hstep, hp]
            simp

/-! ### Theorems for claims C5 and C9 -/

/-- C5 counterexample: for the raw arguments `-f --json`, the token `--json`
is consumed as the value of `-f` and survives into the sanitized output, so
together with the enforced flag the output contains `--json` twice — the
claim demanded that the input occurrence be dropped and that the enforced
`--json` appear exactly once. -/
theorem c5_f_value_keeps_forbidden_flag :
    (_build_sast_args ["-f", "--json"] "/rules/default-rules/").count
      "--json" = 2 := by decide

/-- C5 amended: for every token list containing a forbidden output flag, in
which no forbidden flag token immediately follows a `-f` token (so no
forbidden token can be captured as a `-f` value), and whose default rules
path is neither forbidden flag, the sanitized output contains `--json`
exactly once and `--output` exactly once — the enforced occurrences appended
at the end, every input occurrence having been dropped. -/
theorem c5_forbidden_flags_dropped (args : List String) (d : String)
    (_hin : "--json" ∈ args ∨ "--output" ∈ args)
    (hnc : noCaptureB args = true)
    (hd1 : d ≠ "--json") (hd2 : d ≠ "--output") :
    (_build_sast_args args d).count "--json" = 1 ∧
    (_build_sast_args args d).count "--output" = 1 ∧
    ∃ p, _build_sast_args args d =
      p ++ ["--json", "--output", "results.json"] := by
  have hmem := sanitizeLoop_no_forbidden args.length args le_rfl hnc
  have hj : "--json" ∉ (sanitizeLoop args).1 := fun h => (hmem _ h).1 rfl
  have ho : "--output" ∉ (sanitizeLoop args).1 := fun h => (hmem _ h).2 rfl
  have hcj : (sanitizeLoop args).1.count "--json" = 0 :=
    List.count_eq_zero.mpr hj
  have hco : (sanitizeLoop args).1.count "--output" = 0 :=
    List.count_eq_zero.mpr ho
  cases hr : (sanitizeLoop args).2
  · refine ⟨?_, ?_, (sanitizeLoop args).1 ++ ["-f", d], ?_⟩ <;>
      simp [_build_sast_args, hr, List.count_append, List.count_cons,
        hcj, hco, hd1, hd2]
  · refine ⟨?_, ?_, (sanitizeLoop args).1, ?_⟩ <;>
      simp [_build_sast_args, hr, List.count_append, List.count_cons,
        hcj, hco]

/-- C5 witness: for the raw arguments `--json x` with the container default
rules path, the sanitized output carries each enforced flag exactly once. -/
theorem c5_forbidden_flags_dropped_witness :
    (_build_sast_args ["--json", "x"] "/rules/default-rules/").count
        "--json" = 1 ∧
    (_build_sast_args ["--json", "x"] "/rules/default-rules/").count
        "--output" = 1 ∧
    ∃ p, _build_sast_args ["--json", "x"] "/rules/default-rules/" =
      p ++ ["--json", "--output", "results.json"] :=
  c5_forbidden_flags_dropped ["--json", "x"] "/rules/default-rules/"
    (Or.inl (by decide)) (by decide) (by decide) (by decide)

/-- C9 counterexample: for the raw arguments `--output -f`, the final `-f` is
consumed as the value of the forbidden `--output` flag, so `-f` is not
appended twice, the rules flag is not recorded as present, and the default
rules path IS appended — contradicting the claim for this raw argument
string, whose final token is `-f` with no following value. -/
theorem c9_output_swallows_trailing_f :
    _build_sast_args ["--output", "-f"] "/rules/default-rules/" =
      ["-f", "/rules/default-rules/", "--json", "--output", "results.json"] :=
  by decide

/-- C9 amended: for every token list whose final token is `-f` with no
following value token, provided the token before the final `-f` is not
`--output` (which would consume the `-f` as its value), the sanitizer
appends `-f` twice consecutively, records the rules flag as present, and
appends no default rules path. -/
theorem c9_trailing_rules_flag (init : List String) (d : String)
    (hlast : init.getLast? ≠ some "--output") :
    ∃ p, sanitizeLoop (init ++ ["-f"]) = (p ++ ["-f", "-f"], true) ∧
      _build_sast_args (init ++ ["-f"]) d =
        p ++ ["-f", "-f", "--json", "--output", "results.json"] := by
  obtain ⟨p, hp⟩ := sanitizeLoop_trailing_f init.length init le_rfl hlast
  refine ⟨p, hp, ?_⟩
  simp [_build_sast_args, hp]

/-- C9 witness: for the raw arguments `dir -f`, the sanitizer emits
`dir -f -f` followed only by the enforced output flags. -/
theorem c9_trailing_rules_flag_witness :
    ∃ p, sanitizeLoop (["dir"] ++ ["-f"]) = (p ++ ["-f", "-f"], true) ∧
      _build_sast_args (["dir"] ++ ["-f"]) "/rules/default-rules/" =
        p ++ ["-f", "-f", "--json", "--output", "results.json"] :=
  c9_trailing_rules_flag ["dir"] "/rules/default-rules/" (by decide)

/-! ### The Result Enricher (`process_result_file`,
aspm_cli/scan/sast.py lines 334-382)

`urlparse` is an external collaborator: the embedding receives
`urlparse(self.repo_url).path` as an `Except` value (`error` when the inner
`try` caught an exception, which the code converts to a fatal `ValueError`).
`os.getcwd()`/`os.path.basename` on the working directory are summarised by
the `cwdBase` parameter. -/

/-- Python whitespace as stripped by `str.strip()` (the ASCII subset, which
covers the pipeline's inputs). -/
def pyIsSpaceChar (c : Char) : Bool :=
  c = ' ' || c = '\t' || c = '\n' || c = '\r' ||
    c = Char.ofNat 11 || c = Char.ofNat 12

/-- Python `s.strip()`. -/
def pyStrip (s : PyStr) : PyStr :=
  ((s.dropWhile pyIsSpaceChar).reverse.dropWhile pyIsSpaceChar).reverse

/-- Python `os.path.basename(p)`: everything after the last `/`. -/
def pyBasename (p : PyStr) : PyStr :=
  (p.reverse.takeWhile (fun c => c ≠ '/')).reverse

/-- The pattern removed by `repo_name = os.path.basename(path).replace(".git", "")`. -/
def gitPat : PyStr := ['.', 'g', 'i', 't']

/-- Python `s.replace(".git", "")` with explicit fuel (one unit per consumed
character, so `s.length` is always enough): scan left to right; at each
position remove a `.git` occurrence, else keep the character. -/
def stripGitFuel : Nat → PyStr → PyStr
  | 0, s => s
  | _ + 1, [] => []
  | fuel + 1, c :: r =>
    if gitPat.isPrefixOf (c :: r) then stripGitFuel fuel (r.drop 3)
    else c :: stripGitFuel fuel r

/-- Python `s.replace(".git", "")`: removes every (non-overlapping,
left-to-right) occurrence of `.git`, not only a trailing one. -/
def stripGitAll (s : PyStr) : PyStr := stripGitFuel s.length s

/-- Whether `.git` occurs in `s` (Python `".git" in s`). -/
def hasGitSub : PyStr → Bool
  | [] => false
  | c :: r => gitPat.isPrefixOf (c :: r) || hasGitSub r

/-- The `RunMetadata` mapping merged into the result document root
(lines 362-370). -/
def runMetadata (repo_name repo_url : PyStr)
    (commit_sha commit_ref pipeline_id job_url : JVal) (ai_analysis : Bool) :
    List (String × JVal) :=
  [("repo", .str (String.mk repo_name)),
   ("sha", commit_sha),
   ("ref", commit_ref),
   ("run_id", pipeline_id),
   ("repo_url", .str (String.mk repo_url)),
   ("repo_run_url", job_url),
   ("ai_analysis", .bool ai_analysis)]

/-- The root-shape guard (lines 340-346): a non-dict root becomes its first
element when it is a non-empty list, else an empty dict. -/
def coerceRoot : JVal → JVal
  | .obj fs => .obj fs
  | .arr (x :: _) => x
  | _ => .obj []

/-- Embedding of `process_result_file`: takes the parsed result-file JSON,
`self.repo_url` (`none` for Python `None`), the outcome of
`urlparse(repo_url).path`, the working-directory base name, and the
remaining `ScanRequest` fields. Returns the document written back, or
`error` when the method raises (re-raised by the outer `except`). -/
def process_result_file (data : JVal) (repo_url : Option PyStr)
    (parsedPath : Except Unit PyStr) (cwdBase : PyStr)
    (commit_sha commit_ref pipeline_id job_url : JVal)
    (ai_analysis : Bool) : Except Unit JVal :=
  let data' := coerceRoot data
  let urlGiven : Bool :=
    match repo_url with
    | some s => !s.isEmpty && !(pyStrip s).isEmpty
    | none => false
  if urlGiven then
    match parsedPath with
    | .error _ => .error ()
    | .ok p =>
      let repo_name := stripGitAll (pyBasename p)
      let u := match repo_url with | some s => s | none => []
      pyDictUpdate data'
        (runMetadata repo_name u commit_sha commit_ref pipeline_id job_url
          ai_analysis)
  else
    let repo_name := cwdBase
    let u := "localhost/".data ++ repo_name
    pyDictUpdate data'
      (runMetadata repo_name u commit_sha commit_ref pipeline_id job_url
        ai_analysis)

theorem stripGitFuel_nil (f : Nat) : stripGitFuel f [] = [] := by
  cases f <;> rfl

theorem stripGit_trailing :
    ∀ (fuel : Nat) (t : PyStr), t.length + 4 ≤ fuel → hasGitSub t = false →
      stripGitFuel fuel (t ++ gitPat) = t := by
  intro fuel
  induction fuel with
  | zero => intro t hl _; omega
  | succ fuel ih =>
    intro t hl hGit
    match t with
    | [] =>
      show stripGitFuel (fuel + 1) gitPat = []
      simp [gitPat, stripGitFuel, List.isPrefixOf, stripGitFuel_nil]
    | c :: t' =>
      have hpre : gitPat.isPrefixOf (c :: t') = false ∧ hasGitSub t' = false := by
        simpa [hasGitSub] using hGit
      have hpre2 : gitPat.isPrefixOf (c :: (t' ++ gitPat)) = false := by
        rcases t' with _ | ⟨a, _ | ⟨b, _ | ⟨d, r'⟩⟩⟩
        · simp [gitPat, List.isPrefixOf]
        · simp [gitPat, List.isPrefixOf]
        · simp [gitPat, List.isPrefixOf]
        · cases hcon : gitPat.isPrefixOf (c :: (a :: b :: d :: r' ++ gitPat))
          · rfl
          · exfalso
            simp only [gitPat, List.cons_append, List.isPrefixOf,
              Bool.and_eq_true, beq_iff_eq] at hcon
            obtain ⟨hc, ha, hb, hd, -⟩ := hcon
            subst hc; subst ha; subst hb; subst hd
            simp [gitPat, List.isPrefixOf] at hpre
      show stripGitFuel (fuel + 1) (c :: (t' ++ gitPat)) = c :: t'
      simp only [stripGitFuel, hpre2, Bool.false_eq_true, if_false]
      have : t'.length + 4 ≤ fuel := by
        simp only [List.length_cons] at hl; omega
      rw [ih t' this hpre.2]

/-- The claim's reading of the derivation: only a trailing `.git` suffix is
removed from the final path segment. When `.git` does not occur in `t`, the
code and this reading agree on `t ++ ".git"`. -/
theorem stripGitAll_trailing (t : PyStr) (h : hasGitSub t = false) :
    stripGitAll (t ++ gitPat) = t := by
  have : (t ++ gitPat).length = t.length + 4 := by
    simp [gitPat]
  rw [stripGitAll, this]
  exact stripGit_trailing (t.length + 4) t le_rfl h

theorem lookupKey_dictSet_self (fs : List (String × JVal)) (k : String)
    (v : JVal) : lookupKey (dictSet fs k v) k = some v := by
  induction fs with
  | nil => simp [dictSet, lookupKey]
  | cons p rest ih =>
    by_cases hp : p.1 = k
    · simp only [dictSet, if_pos hp, lookupKey]
      simp
    · simp only [dictSet, if_neg hp, lookupKey, if_neg hp]
      exact ih

theorem lookupKey_dictSet_ne (fs : List (String × JVal)) (k : String)
    (v : JVal) (k' : String) (h : k' ≠ k) :
    lookupKey (dictSet fs k v) k' = lookupKey fs k' := by
  induction fs with
  | nil =>
    simp only [dictSet, lookupKey]
    exact if_neg (fun hh => h hh.symm)
  | cons p rest ih =>
    by_cases hp : p.1 = k
    · have hpk : ¬(p.1 = k') := by
        intro hh
        exact h (hh ▸ hp)
      simp only [dictSet, if_pos hp, lookupKey]
      rw [if_neg (fun hh => h hh.symm), if_neg hpk]
    · simp only [dictSet, if_neg hp, lookupKey]
      by_cases hpk : p.1 = k'
      · rw [if_pos hpk, if_pos hpk]
      · rw [if_neg hpk, if_neg hpk, ih]

/-- Folding `dictSet` over a list of bindings whose key is absent leaves a
lookup unchanged. -/
theorem lookupKey_foldl_not_mem (pairs : List (String × JVal)) :
    ∀ (acc : List (String × JVal)) (k : String),
      (∀ q ∈ pairs, q.1 ≠ k) →
      lookupKey (pairs.foldl (fun a q => dictSet a q.1 q.2) acc) k =
        lookupKey acc k := by
  induction pairs with
  | nil => intro acc k _; rfl
  | cons p rest ih =>
    intro acc k h
    simp only [List.foldl_cons]
    rw [ih (dictSet acc p.1 p.2) k (fun q hq => h q (List.mem_cons_of_mem p hq))]
    exact lookupKey_dictSet_ne acc p.1 p.2 k
      (fun hh => h p (List.mem_cons_self p rest) hh.symm)

/-- Folding `dictSet` over bindings with pairwise-distinct keys makes every
binding retrievable. -/
theorem lookupKey_updateMany (pairs : List (String × JVal)) :
    ∀ (acc : List (String × JVal)),
      (pairs.map Prod.fst).Nodup →
      ∀ q ∈ pairs,
        lookupKey (pairs.foldl (fun a r => dictSet a r.1 r.2) acc) q.1 =
          some q.2 := by
  induction pairs with
  | nil => intro acc _ q hq; simp at hq
  | cons p rest ih =>
    intro acc hnd q hq
    simp only [List.map_cons, List.nodup_cons] at hnd
    simp only [List.foldl_cons]
    rcases List.mem_cons.mp hq with rfl | hq'
    · rw [lookupKey_foldl_not_mem rest (dictSet acc q.1 q.2) q.1 ?_]
      · exact lookupKey_dictSet_self acc q.1 q.2
      · intro r hr hrk
        exact hnd.1 (hrk ▸ List.mem_map_of_mem Prod.fst hr)
    · exact ih (dictSet acc p.1 p.2) hnd.2 q hq'

theorem runMetadata_keys_nodup (rn ru : PyStr)
    (sha ref rid jurl : JVal) (ai : Bool) :
    ((runMetadata rn ru sha ref rid jurl ai).map Prod.fst).Nodup := by
  have h : (runMetadata rn ru sha ref rid jurl ai).map Prod.fst =
      ["repo", "sha", "ref", "run_id", "repo_url", "repo_run_url",
        "ai_analysis"] := rfl
  rw [h]
  decide

theorem pyStrip_nonempty_src {u : PyStr}
    (h : (pyStrip u).isEmpty = false) : u.isEmpty = false := by
  cases u with
  | nil => simp [pyStrip] at h
  | cons c r => rfl

/-! ### Theorems for claims C7 and C8 -/

/-- C7 counterexample: for the repository URL path `/org/a.gitb.git`, the
final path segment is `a.gitb.git`; the claim says only the trailing `.git`
is removed (giving `a.gitb`), but the code's `.replace(".git", "")` removes
every occurrence, so the document the Enricher writes carries repo `ab`. -/
theorem c7_nontrailing_git_removed :
    process_result_file (.obj []) (some "https://host/org/a.gitb.git".data)
        (.ok "/org/a.gitb.git".data) "cwd".data .null .null .null .null
        false =
      .ok (.obj [("repo", .str "ab"), ("sha", .null), ("ref", .null),
        ("run_id", .null), ("repo_url", .str "https://host/org/a.gitb.git"),
        ("repo_run_url", .null), ("ai_analysis", .bool false)]) ∧
    ("ab" : String) ≠ "a.gitb" := ⟨rfl, by decide⟩

/-- C7 amended: the derived repo name is the final path segment with every
occurrence of `.git` removed; when `.git` occurs in the segment only as the
trailing suffix the result coincides with stripping that suffix; and when
URL parsing raises, the Enricher raises the configuration error (aborting
the scan). -/
theorem c7_repo_name_derivation (t : PyStr) (hng : hasGitSub t = false)
    (data : JVal) (u cwd : PyStr) (sha ref rid jurl : JVal) (ai : Bool)
    (hu : (pyStrip u).isEmpty = false) :
    stripGitAll (t ++ gitPat) = t ∧
    process_result_file data (some u) (.error ()) cwd sha ref rid jurl ai =
      .error () := by
  refine ⟨stripGitAll_trailing t hng, ?_⟩
  have hne : u.isEmpty = false := pyStrip_nonempty_src hu
  simp [process_result_file, hne, hu]

/-- C7 witness: the segment `repo.git` strips to `repo`, and a failing URL
parse aborts the Enricher. -/
theorem c7_repo_name_derivation_witness :
    stripGitAll ("repo".data ++ gitPat) = "repo".data ∧
    process_result_file (.obj []) (some "u".data) (.error ()) "cwd".data
      .null .null .null .null false = .error () :=
  c7_repo_name_derivation "repo".data (by decide) (.obj []) "u".data
    "cwd".data .null .null .null .null false (by decide)

/-- C8 counterexample: for the result-file root `[5]` (a non-empty list
whose first element is not a mapping), the root is coerced to `5` and the
metadata merge (`data.update`) raises, so the Enricher re-raises instead of
writing a document — the claim's promise that the merge and write succeed
for every JSON root fails. -/
theorem c8_list_root_nondict_first_raises :
    process_result_file (.arr [.num 5])
        (some "https://host/org/repo.git".data) (.ok "/org/repo.git".data)
        "cwd".data .null .null .null .null false = .error () := rfl

/-- C8 amended: whenever the coerced root is a mapping (the root is a
mapping, or it is coerced to an empty mapping, or it is a non-empty list
whose first element is a mapping), the Enricher succeeds: the written
document has a mapping root and carries all seven RunMetadata fields with
the derived values. -/
theorem c8_root_coercion (data : JVal) (u p cwd : PyStr)
    (sha ref rid jurl : JVal) (ai : Bool)
    (hu : (pyStrip u).isEmpty = false)
    (hc : isDict (coerceRoot data) = true) :
    ∃ fs', process_result_file data (some u) (.ok p) cwd sha ref rid jurl
        ai = .ok (.obj fs') ∧
      ∀ q ∈ runMetadata (stripGitAll (pyBasename p)) u sha ref rid jurl ai,
        lookupKey fs' q.1 = some q.2 := by
  have hne : u.isEmpty = false := pyStrip_nonempty_src hu
  obtain ⟨fs0, hfs0⟩ : ∃ fs0, coerceRoot data = .obj fs0 := by
    cases hco : coerceRoot data <;> rw [hco] at hc <;> simp [isDict] at hc
    exact ⟨_, rfl⟩
  refine ⟨(runMetadata (stripGitAll (pyBasename p)) u sha ref rid jurl
      ai).foldl (fun a r => dictSet a r.1 r.2) fs0, ?_, ?_⟩
  · simp [process_result_file, hne, hu, hfs0, pyDictUpdate]
  · intro q hq
    exact lookupKey_updateMany _ fs0
      (runMetadata_keys_nodup _ _ sha ref rid jurl ai) q hq

/-- C8 witness: a bare-array root whose first element is a mapping is
coerced to that mapping and enriched with all seven metadata fields. -/
theorem c8_root_coercion_witness :
    ∃ fs', process_result_file (.arr [.obj [("x", .num 1)]])
        (some "https://host/o/r.git".data) (.ok "/o/r.git".data) "cwd".data
        .null .null .null .null true = .ok (.obj fs') ∧
      ∀ q ∈ runMetadata (stripGitAll (pyBasename "/o/r.git".data))
          "https://host/o/r.git".data .null .null .null .null true,
        lookupKey fs' q.1 = some q.2 :=
  c8_root_coercion (.arr [.obj [("x", .num 1)]]) "https://host/o/r.git".data
    "/o/r.git".data "cwd".data .null .null .null .null true (by decide) rfl

/-! ### The Severity Gate (`_severity_threshold_met`,
aspm_cli/scan/sast.py lines 402-418)

`json.load` of the (already enricher-written) result file is summarised by
the parsed `JVal` argument. Any exception inside the method is re-raised
(`Except.error`). -/

/-- The per-finding severity read of line 411:
`result.get("extra", {}).get("severity", "").upper()`. Raises when the
finding or its `extra` value is not a dict, or the severity value is not a
string. -/
def getSeverityStr (f : JVal) : Except Unit String :=
  match f with
  | .obj fs =>
    match (lookupKey fs "extra").getD (.obj []) with
    | .obj efs =>
      match (lookupKey efs "severity").getD (.str "") with
      | .str s => .ok (pyUpper s)
      | _ => .error ()
    | _ => .error ()
  | _ => .error ()

/-- The `for result in results` loop of lines 409-414, with its early
`return True`. -/
def severityLoop (sevs : List String) : List JVal → Except Unit Bool
  | [] => .ok false
  | f :: rest =>
    match getSeverityStr f with
    | .error e => .error e
    | .ok s => if s ∈ sevs then .ok true else severityLoop sevs rest

/-- Embedding of `_severity_threshold_met`: `data` is the parsed result
file, `sevs` is `self.severity` (the configured allow-list, already
upper-cased by the constructor). -/
def _severity_threshold_met (data : JVal) (sevs : List String) :
    Except Unit Bool :=
  match data with
  | .obj fs =>
    match pyIterVals ((lookupKey fs "results").getD (.arr [])) with
    | .error e => .error e
    | .ok items => severityLoop sevs items
  | _ => .error ()

/-- The spec's reading of a finding's severity (used for the refinement
comparison in C4): `extra.severity` upper-cased, read as the empty string
when the `extra` key or the `severity` key is absent (the spec's C10
wording), undefined when the shapes make the code raise. -/
def specSeverityRead (f : JVal) : Option String :=
  match f with
  | .obj fs =>
    match lookupKey fs "extra" with
    | none => some (pyUpper "")
    | some (.obj efs) =>
      match lookupKey efs "severity" with
      | none => some (pyUpper "")
      | some (.str s) => some (pyUpper s)
      | some _ => none
    | some _ => none
  | _ => none

/-- The `results` value of a document root, when it is a sequence (missing
`results` reads as the empty sequence, line 408). -/
def resultsSeq (fs : List (String × JVal)) : Option (List JVal) :=
  match (lookupKey fs "results").getD (.arr []) with
  | .arr xs => some xs
  | _ => none

/-- A finding with the given `extra.severity` string. -/
def severityFinding (s : String) : JVal :=
  .obj [("extra", .obj [("severity", .str s)])]

/-- The spec's first Severity Gate example document. -/
def docLowHigh : JVal :=
  .obj [("results", .arr [severityFinding "LOW", severityFinding "HIGH"])]

/-- The spec's second Severity Gate example document. -/
def docLowMedium : JVal :=
  .obj [("results", .arr [severityFinding "LOW", severityFinding "MEDIUM"])]

theorem pyUpper_empty : pyUpper "" = "" := rfl

theorem getSeverityStr_agrees (f : JVal) (s : String) :
    getSeverityStr f = .ok s ↔ specSeverityRead f = some s := by
  match f with
  | .null | .bool _ | .num _ | .str _ | .arr _ =>
    simp [getSeverityStr, specSeverityRead]
  | .obj fs =>
    cases he : lookupKey fs "extra" with
    | none => simp [getSeverityStr, specSeverityRead, he, lookupKey]
    | some e =>
      match e with
      | .obj efs =>
        cases hs : lookupKey efs "severity" with
        | none => simp [getSeverityStr, specSeverityRead, he, hs]
        | some sv =>
          match sv with
          | .str s' => simp [getSeverityStr, specSeverityRead, he, hs]
          | .null | .bool _ | .num _ | .arr _ | .obj _ =>
            simp [getSeverityStr, specSeverityRead, he, hs]
      | .null | .bool _ | .num _ | .str _ | .arr _ =>
        simp [getSeverityStr, specSeverityRead, he]

theorem severityLoop_iff (sevs : List String) :
    ∀ (xs : List JVal) (b : Bool), severityLoop sevs xs = .ok b →
      (b = true ↔ ∃ f ∈ xs, ∃ s, specSeverityRead f = some s ∧ s ∈ sevs) := by
  intro xs
  induction xs with
  | nil =>
    intro b hb
    simp only [severityLoop, Except.ok.injEq] at hb
    subst hb
    simp
  | cons f rest ih =>
    intro b hb
    cases hg : getSeverityStr f with
    | error e =>
      simp only [severityLoop, hg] at hb
      exact Except.noConfusion hb
    | ok s =>
      simp only [severityLoop, hg] at hb
      by_cases hs : s ∈ sevs
      · rw [if_pos hs] at hb
        cases hb
        simp only [true_iff]
        exact ⟨f, List.mem_cons_self f rest, s,
          (getSeverityStr_agrees f s).mp hg, hs⟩
      · rw [if_neg hs] at hb
        rw [ih b hb]
        constructor
        · rintro ⟨g, hg', rest'⟩
          exact ⟨g, List.mem_cons_of_mem f hg', rest'⟩
        · rintro ⟨g, hgm, s', hsr, hs'⟩
          rcases List.mem_cons.mp hgm with rfl | hgm'
          · exfalso
            have := (getSeverityStr_agrees g s').mpr hsr
            rw [hg] at this
            cases this
            exact hs hs'
          · exact ⟨g, hgm', s', hsr, hs'⟩

/-! ### Theorems for claims C4 and C10 -/

/-- C4 confirmed: whenever the gate returns normally on a document whose
root is a mapping and whose `results` value is a sequence, it returns true
iff some finding's severity (read as the code and spec read it, defaulting
to the empty string when absent, upper-cased) is in the allow-list; the
spec's three concrete examples evaluate as stated. -/
theorem c4_severity_gate :
    (∀ (fs : List (String × JVal)) (xs : List JVal) (sevs : List String)
      (b : Bool),
      resultsSeq fs = some xs →
      _severity_threshold_met (.obj fs) sevs = .ok b →
      (b = true ↔ ∃ f ∈ xs, ∃ s, specSeverityRead f = some s ∧ s ∈ sevs)) ∧
    _severity_threshold_met docLowHigh ["HIGH", "CRITICAL"] = .ok true ∧
    _severity_threshold_met docLowMedium ["HIGH", "CRITICAL"] = .ok false ∧
    (∀ (fs : List (String × JVal)) (sevs : List String),
      lookupKey fs "results" = some (.arr []) →
      _severity_threshold_met (.obj fs) sevs = .ok false) := by
  refine ⟨?_, rfl, rfl, ?_⟩
  · intro fs xs sevs b hres hmet
    have hxs : (lookupKey fs "results").getD (.arr []) = .arr xs := by
      unfold resultsSeq at hres
      cases hv : (lookupKey fs "results").getD (.arr []) <;> rw [hv] at hres <;>
        simp at hres
      rw [hres]
    simp only [_severity_threshold_met, hxs, pyIterVals] at hmet
    exact severityLoop_iff sevs xs b hmet
  · intro fs sevs hres
    simp [_severity_threshold_met, hres, pyIterVals, severityLoop]

/-- C4 witness: the general equivalence instantiated at the spec's first
example: the gate returns true, and indeed a finding with severity HIGH is
in the allow-list. -/
theorem c4_severity_gate_witness :
    (true = true ↔ ∃ f ∈ [severityFinding "LOW", severityFinding "HIGH"],
      ∃ s, specSeverityRead f = some s ∧ s ∈ ["HIGH", "CRITICAL"]) :=
  c4_severity_gate.1
    [("results", .arr [severityFinding "LOW", severityFinding "HIGH"])]
    [severityFinding "LOW", severityFinding "HIGH"] ["HIGH", "CRITICAL"]
    true rfl rfl

/-- C10 confirmed: when every allow-list entry is non-empty, a finding that
is a mapping without an `extra` key, or whose `extra` mapping has no
`severity` key, reads as the empty severity string, is not in the
allow-list, and therefore never satisfies the gate (the loop skips it). -/
theorem c10_missing_severity_never_met (sevs : List String)
    (hne : ∀ s ∈ sevs, s ≠ "") (fs : List (String × JVal))
    (hshape : lookupKey fs "extra" = none ∨
      ∃ efs, lookupKey fs "extra" = some (.obj efs) ∧
        lookupKey efs "severity" = none) :
    getSeverityStr (.obj fs) = .ok "" ∧ "" ∉ sevs ∧
    ∀ rest, severityLoop sevs (.obj fs :: rest) = severityLoop sevs rest := by
  have hgs : getSeverityStr (.obj fs) = .ok "" := by
    rcases hshape with h | ⟨efs, h1, h2⟩
    · simp [getSeverityStr, h, lookupKey, pyUpper_empty]
    · simp [getSeverityStr, h1, h2, pyUpper_empty]
  have hni : "" ∉ sevs := fun hm => hne "" hm rfl
  refine ⟨hgs, hni, ?_⟩
  intro rest
  simp only [severityLoop, hgs]
  rw [if_neg hni]

/-- C10 witness: a finding carrying only a path, against the allow-list
`HIGH, CRITICAL`. -/
theorem c10_missing_severity_never_met_witness :
    getSeverityStr (.obj [("path", .str "x")]) = .ok "" ∧
    "" ∉ ["HIGH", "CRITICAL"] ∧
    ∀ rest, severityLoop ["HIGH", "CRITICAL"] (.obj [("path", .str "x")] :: rest) =
      severityLoop ["HIGH", "CRITICAL"] rest :=
  c10_missing_severity_never_met ["HIGH", "CRITICAL"] (by decide)
    [("path", .str "x")] (Or.inl rfl)

/-! ### AI Triage (`_run_ai_analysis`, aspm_cli/scan/sast.py lines 98-197)

External collaborators: the Claude subprocess (its observable return code
and stdout are parameters), `json.load` of the result file (the parsed
`current_data` is a parameter; a read failure is caught and keeps the
original results, matching the `none` outcome), and `json.loads` on the
recovered output (the `loads` parameter). The function returns
`some written` when it commits a replacement document to the result file
and `none` when it returns leaving the file untouched; every exception is
caught inside the Python function, so the embedding is total. -/

/-- Python `hay.find(pat, start)`: absolute index of the first occurrence at
or after `start`, `-1` when absent. -/
def pyFindFrom (hay pat : PyStr) (start : Nat) : Int :=
  match subFind pat (hay.drop start) with
  | some i => ((start + i : Nat) : Int)
  | none => -1

/-- Python slice `s[a:b]` for a non-negative `a` and a possibly negative
`b` (the only shapes the recovery code produces). -/
def pySliceTo (s : PyStr) (a : Nat) (b : Int) : PyStr :=
  let n := s.length
  let b' : Nat := if b < 0 then ((n : Int) + b).toNat else min b.toNat n
  (s.take b').drop a

/-- The three-backtick fence marker. -/
def fence3 : PyStr := "\x60\x60\x60".data

/-- The fenced-json marker. -/
def fenceJson : PyStr := "\x60\x60\x60json".data

/-- An opening-brace character. -/
def lbraceChar : Char := Char.ofNat 123

/-- An opening-bracket character. -/
def lbrackChar : Char := '['

/-- The leading-prose scan (lines 157-163): position of the earliest
brace/bracket, discarding everything before it when one exists. -/
def scanStart (s : PyStr) : PyStr :=
  let a := match subFind [lbraceChar] s with
    | some i => i
    | none => s.length
  let b := match subFind [lbrackChar] s with
    | some i => i
    | none => s.length
  let js := min a b
  if js < s.length then s.drop js else s

/-- Python `output.startswith(lbrace) or output.startswith(lbrack)`. -/
def startsJson : PyStr → Bool
  | [] => false
  | c :: _ => c = lbraceChar || c = lbrackChar

/-- The JSON recovery of lines 143-163: strip, extract a fenced block
(`json`-tagged fences first), then drop leading prose before the first
brace/bracket. -/
def recoverJson (raw : PyStr) : PyStr :=
  let out0 := pyStrip raw
  let out1 :=
    match subFind fenceJson out0 with
    | some i =>
      pyStrip (pySliceTo out0 (i + 7) (pyFindFrom out0 fence3 (i + 7)))
    | none =>
      match subFind fence3 out0 with
      | some i =>
        pyStrip (pySliceTo out0 (i + 3) (pyFindFrom out0 fence3 (i + 3)))
      | none => out0
  if startsJson out1 then out1 else scanStart out1

/-- The shape validation of line 171:
`isinstance(updated_results, dict) and "results" in updated_results`. -/
def isDictWithResults : JVal → Bool
  | .obj ufs => (lookupKey ufs "results").isSome
  | _ => false

/-- The metadata field names preserved on replacement (line 176). Note that
the Python list omits `ai_analysis`, one of the seven fields
`process_result_file` merges. -/
def metadata_fields : List String :=
  ["repo", "sha", "ref", "run_id", "repo_url", "repo_run_url"]

/-- Lines 177-179: for each metadata field name, copy the prior document's
value into the replacement when present. -/
def preserveMetadata (current updated : List (String × JVal)) :
    List (String × JVal) :=
  metadata_fields.foldl
    (fun acc f =>
      match lookupKey current f with
      | some v => dictSet acc f v
      | none => acc) updated

/-- Embedding of `_run_ai_analysis` from the result-file read onward (the
API key is present and the image pull succeeded; `current_data` is the
parsed result file, `returncode`/`stdout` the Claude subprocess
observables, `loads` is `json.loads`). Returns the document written to the
result file, or `none` when the function returns with the file unchanged
(every failure path: non-dict root, unsized/empty/falsy `results`, non-zero
exit, empty output, JSON parse failure, shape validation failure). -/
def _run_ai_analysis (loads : PyStr → Option JVal) (current_data : JVal)
    (returncode : Int) (stdout : PyStr) : Option JVal :=
  match pyGet current_data "results" (.arr []) with
  | .error _ => none
  | .ok results =>
    match pyLen results with
    | .error _ => none
    | .ok n =>
      match !pyTruthy results || n == 0 with
      | true => none
      | false =>
        match returncode == 0 with
        | false => none
        | true =>
          match stdout.isEmpty with
          | true => none
          | false =>
            match loads (recoverJson stdout) with
            | none => none
            | some updated =>
              match isDictWithResults updated with
              | false => none
              | true =>
                match updated, current_data with
                | .obj ufs, .obj cfs =>
                  some (.obj (preserveMetadata cfs ufs))
                | _, _ => none

/-! ### Theorems for claims C1 and C2 -/

/-- The prior ResultDocument of the C1 failing input: non-empty `results`,
`ai_analysis` true, and a `repo` field, as written by the Enricher. -/
def c1CurrentFields : List (String × JVal) :=
  [("results", .arr [.obj []]), ("ai_analysis", .bool true),
   ("repo", .str "demo")]

/-- The replacement document the AI emits on the C1 failing input: a
mapping with a `results` key and none of the metadata fields. -/
def c1Stdout : PyStr := "\x7b\"results\": []\x7d".data

/-- `json.loads` on the C1 failing input: parses the AI output to a mapping
with an (empty) `results` list. -/
def c1Loads : PyStr → Option JVal :=
  fun s => if s = c1Stdout then some (.obj [("results", .arr [])]) else none

/-- The document Triage commits on the C1 failing input. -/
def c1Written : List (String × JVal) :=
  [("results", .arr []), ("repo", .str "demo")]

/-- C1: evaluation at the failing input. The prior document carries
`ai_analysis = true` (and `repo = "demo"`); after Triage commits the
replacement, `repo` is preserved but `ai_analysis` is absent from the
written document — the code's preserved-field list omits it, contradicting
the claim (and the spec's RunMetadata survival requirement, and the code's
own comment that it preserves the fields `process_result_file` added). -/
theorem c1_ai_analysis_field_lost :
    _run_ai_analysis c1Loads (.obj c1CurrentFields) 0 c1Stdout =
      some (.obj c1Written) ∧
    lookupKey c1CurrentFields "ai_analysis" = some (.bool true) ∧
    lookupKey c1Written "ai_analysis" = none ∧
    lookupKey c1CurrentFields "repo" = some (.str "demo") ∧
    lookupKey c1Written "repo" = some (.str "demo") :=
  ⟨rfl, rfl, rfl, rfl, rfl⟩

/-- C2 confirmed: whenever the AI output fails to parse as JSON after
recovery, or parses to a value that is not a mapping with a `results` key,
AI Triage returns `none`: no write to the result file occurs (and the
Python function catches every exception, so nothing propagates). -/
theorem c2_triage_degrades_safely (loads : PyStr → Option JVal)
    (stdout : PyStr) (current : JVal) (rc : Int)
    (h : ∀ j, loads (recoverJson stdout) = some j →
      isDictWithResults j = false) :
    _run_ai_analysis loads current rc stdout = none := by
  rw [_run_ai_analysis]
  cases hg : pyGet current "results" (.arr []) with
  | error e => rfl
  | ok results =>
    dsimp only
    cases hn : pyLen results with
    | error e => rfl
    | ok n =>
      dsimp only
      cases hc1 : (!pyTruthy results || n == 0) with
      | true => rfl
      | false =>
        dsimp only
        cases hc2 : (rc == 0) with
        | false => rfl
        | true =>
          dsimp only
          cases hc3 : stdout.isEmpty with
          | true => rfl
          | false =>
            dsimp only
            cases hl : loads (recoverJson stdout) with
            | none => rfl
            | some j =>
              dsimp only
              rw [h j hl]

/-- C2 witness: a parser that rejects the output makes Triage keep the
original document of a non-empty scan. -/
theorem c2_triage_degrades_safely_witness :
    _run_ai_analysis (fun _ => none) (.obj [("results", .arr [.obj []])])
      0 ['x'] = none :=
  c2_triage_degrades_safely (fun _ => none) ['x']
    (.obj [("results", .arr [.obj []])]) 0
    (fun _ hj => Option.noConfusion hj)

/-! ### Theorems for claims C3 and C6 -/

/-- C3 counterexample: with `keep_file = False`, an invocation taking the
empty-`data_type` early return (which happens before the `try`/`finally`)
leaves an existing result file on disk, contradicting the claim that the file
no longer exists on every outcome path. Exit code is 1 and the file still
exists. -/
theorem c3_empty_data_type_keeps_file :
    upload_results true true ReqOutcome.timeout false = (1, true) := rfl

/-- C3 amended: with `keep_file = False` the file at `file_path` no longer
exists when `upload_results` returns, on every path except the
empty-`data_type` early return (which precedes the cleanup handler and leaves
an existing file untouched); with `keep_file = True` the file is retained
exactly when it existed. -/
theorem c3_cleanup_guarantee (dtE fe k : Bool) (o : ReqOutcome) :
    (dtE = false → k = false → (upload_results dtE fe o k).2 = false) ∧
    (fe = false → (upload_results dtE fe o k).2 = false) ∧
    (k = true → dtE = false → (upload_results dtE fe o k).2 = fe) := by
  cases o <;> cases dtE <;> cases fe <;> cases k <;> simp [upload_results]

/-- C3 witness: a timed-out upload with a present file, non-empty `data_type`
and `keep_file = False` ends with the file deleted. -/
theorem c3_cleanup_guarantee_witness :
    (upload_results false true ReqOutcome.timeout false).2 = false :=
  (c3_cleanup_guarantee false true false ReqOutcome.timeout).1 rfl rfl

/-- C6 counterexample: a help-flagged invocation whose stdout is empty, whose
stderr is non-empty and whose process exit code is 1 does not return the
pass/no-file outcome: `run` logs stderr at error level and falls through to
result processing, contradicting the claim that any non-empty stream yields
an immediate pass return. -/
theorem c6_help_stderr_nonzero_rc_no_short_circuit :
    runEarly (some "--help".data) [] "err".data 1 = none := rfl

/-- C6 amended: for a raw command containing the help flag, a non-empty
stdout always yields an immediate pass return with no result file; a
non-empty stderr (with stdout empty) yields that return only when the process
exit code is 0. -/
theorem c6_help_short_circuit (cmd stdout stderr : PyStr) (rc : Int)
    (hHelp : strContains cmd helpFlag = true) :
    (stdout ≠ [] →
      runEarly (some cmd) stdout stderr rc = some (PASS_RETURN_CODE, none)) ∧
    (stdout = [] → stderr ≠ [] → rc = 0 →
      runEarly (some cmd) stdout stderr rc = some (PASS_RETURN_CODE, none)) := by
  constructor
  · intro hs
    simp [runEarly, hs, hHelp]
  · intro hs he hrc
    simp [runEarly, hs, he, hrc, hHelp]

/-- C6 witness: a `--help` invocation with non-empty stdout returns the pass
outcome with no result file. -/
theorem c6_help_short_circuit_witness :
    runEarly (some "--help".data) ['x'] [] 0 = some (PASS_RETURN_CODE, none) :=
  (c6_help_short_circuit "--help".data ['x'] [] 0 (by decide)).1 (by decide)

end ASPM
